import Mathlib

/-!
Verification of the lifx-async client library.

This file gives a shallow embedding of the parts of the library that the
checked properties talk about:

* the per-attempt retry/timeout schedule and the response-polling loop of
  `_ActualConnection.request_stream` / `request_ack_stream`
  (`src/lifx/network/connection.py`);
* the LRU connection pool (`ConnectionPool.get_connection`);
* the conductor's running-effect registry (`Conductor.stop`,
  `Conductor.add_lights`, `Conductor.effect` in
  `src/lifx/effects/conductor.py`);
* the frame loop of `FrameEffect.async_play`
  (`src/lifx/effects/frame_effect.py`) and the per-pixel frame generators of
  the catalog effects (rainbow, flame, aurora, colorloop, progress,
  sunrise, sunset).

Python floats are modelled by `ℚ` where only field arithmetic and order are
used, and by `ℝ` where the source calls transcendental functions
(`math.sin`, `math.exp`, float `**`).  Python `dict`s are modelled by
association lists with dictionary update semantics.
-/

namespace Lifx

/-! ### Dictionary helpers (model of Python `dict` / `OrderedDict`) -/

/-- Lookup in an association list: the binding of the first entry with the
given key, as a Python `dict.get`. -/
def dictGet {V : Type} (k : Nat) : List (Nat × V) → Option V
  | [] => none
  | (k2, v) :: t => if k2 = k then some v else dictGet k t

/-- Assignment `m[k] = v` in a Python `dict`: replace the value in place if
the key is present, otherwise append the new binding at the end. -/
def dictSet {V : Type} (k : Nat) (v : V) : List (Nat × V) → List (Nat × V)
  | [] => [(k, v)]
  | (k2, v2) :: t => if k2 = k then (k, v) :: t else (k2, v2) :: dictSet k v t

/-- Deletion `del m[k]` in a Python `dict`: remove every binding of the key
(a well-formed dict has at most one). -/
def dictDel {V : Type} (k : Nat) (m : List (Nat × V)) : List (Nat × V) :=
  m.filter (fun p => p.1 ≠ k)

theorem dictGet_dictSet_self {V : Type} (k : Nat) (v : V) (m : List (Nat × V)) :
    dictGet k (dictSet k v m) = some v := by
  induction m with
  | nil => simp [dictSet, dictGet]
  | cons h t ih =>
    by_cases hk : h.1 = k
    · simp [dictSet, hk, dictGet]
    · simp [dictSet, hk, dictGet, ih]

theorem dictGet_dictSet_other {V : Type} (k k2 : Nat) (v : V) (m : List (Nat × V))
    (hne : k2 ≠ k) : dictGet k2 (dictSet k v m) = dictGet k2 m := by
  have hne2 : ¬ k = k2 := fun hcon => hne hcon.symm
  induction m with
  | nil => simp [dictSet, dictGet, hne2]
  | cons hd t ih =>
    by_cases hk : hd.1 = k
    · have hd2 : ¬ hd.1 = k2 := by rw [hk]; exact hne2
      simp [dictSet, hk, dictGet, hne2, hd2]
    · simp only [dictSet, hk, if_false, dictGet]
      by_cases hk2 : hd.1 = k2
      · simp [hk2]
      · simp [hk2, ih]

theorem dictGet_dictDel_self {V : Type} (k : Nat) (m : List (Nat × V)) :
    dictGet k (dictDel k m) = none := by
  induction m with
  | nil => simp [dictDel, dictGet]
  | cons h t ih =>
    by_cases hk : h.1 = k
    · simpa [dictDel, hk] using ih
    · simpa [dictDel, dictGet, hk] using ih

theorem dictGet_dictDel_none {V : Type} (k k2 : Nat) (m : List (Nat × V))
    (h : dictGet k m = none) : dictGet k (dictDel k2 m) = none := by
  induction m with
  | nil => simp [dictDel, dictGet]
  | cons hd t ih =>
    by_cases hk : hd.1 = k
    · simp [dictGet, hk] at h
    · simp only [dictGet, hk, if_false] at h
      by_cases hk2 : hd.1 = k2
      · simpa [dictDel, hk2] using ih h
      · simpa [dictDel, dictGet, hk2, hk] using ih h

theorem dictGet_mem {V : Type} (k : Nat) (v : V) (m : List (Nat × V))
    (h : dictGet k m = some v) : (k, v) ∈ m := by
  induction m with
  | nil => simp [dictGet] at h
  | cons hd t ih =>
    by_cases hk : hd.1 = k
    · simp only [dictGet, hk, if_true, Option.some.injEq] at h
      have heq : hd = (k, v) := Prod.ext hk h
      rw [heq]
      exact List.mem_cons_self _ _
    · simp only [dictGet, hk, if_false] at h
      exact List.mem_cons_of_mem _ (ih h)

theorem dictGet_of_mem_nodup {V : Type} (m : List (Nat × V)) (p : Nat × V)
    (hnd : (m.map Prod.fst).Nodup) (hmem : p ∈ m) : dictGet p.1 m = some p.2 := by
  induction m with
  | nil => simp at hmem
  | cons hd t ih =>
    simp only [List.map_cons, List.nodup_cons] at hnd
    rcases List.mem_cons.mp hmem with heq | hmem2
    · simp [heq, dictGet]
    · have hne : hd.1 ≠ p.1 := by
        intro hcon
        exact hnd.1 (hcon ▸ List.mem_map_of_mem Prod.fst hmem2)
      simp only [dictGet, hne, if_false]
      exact ih hnd.2 hmem2

/-! ### Retry/timeout schedule of `_ActualConnection.request_stream`
(`connection.py` lines 340-354): the overall timeout is split across the
`max_retries + 1` attempts as a geometric series. -/

/-- Geometric series weight `2 ** (max_retries + 1) - 1` (`connection.py`
line 343). -/
def totalWeight (maxRetries : Nat) : ℚ := 2 ^ (maxRetries + 1) - 1

/-- Base per-attempt timeout `timeout / total_weight` (`connection.py`
line 344). -/
def baseTimeout (timeout : ℚ) (maxRetries : Nat) : ℚ :=
  timeout / totalWeight maxRetries

/-- Per-attempt timeout `base_timeout * (2 ** attempt)` (`connection.py`
line 354). -/
def attemptTimeout (timeout : ℚ) (maxRetries attempt : Nat) : ℚ :=
  baseTimeout timeout maxRetries * 2 ^ attempt

theorem totalWeight_pos (maxRetries : Nat) : 0 < totalWeight maxRetries := by
  unfold totalWeight
  have h2 : (2 : ℚ) ^ (maxRetries + 1) ≥ 2 ^ 1 := by
    apply pow_le_pow_right₀ (by norm_num)
    omega
  simp at h2
  linarith

/-- C2: the base is `overall / (2^(R+1) - 1)`, attempt `n` gets
`base · 2^n`, and the attempt timeouts sum exactly to the overall timeout
(exactly over `ℚ`; the source computes with floats, hence the spec's
"within floating-point tolerance"). -/
theorem attemptTimeouts_sum_to_overall (timeout : ℚ) (maxRetries : Nat)
    (hT : 0 < timeout) :
    baseTimeout timeout maxRetries = timeout / (2 ^ (maxRetries + 1) - 1) ∧
    (∀ n : Nat, attemptTimeout timeout maxRetries n =
      baseTimeout timeout maxRetries * 2 ^ n) ∧
    (Finset.range (maxRetries + 1)).sum (attemptTimeout timeout maxRetries) =
      timeout := by
  refine ⟨rfl, fun n => rfl, ?_⟩
  have hgeom : (Finset.range (maxRetries + 1)).sum (fun n => (2 : ℚ) ^ n) =
      2 ^ (maxRetries + 1) - 1 := by
    have h := geom_sum_eq (by norm_num : (2 : ℚ) ≠ 1) (maxRetries + 1)
    rw [h]
    norm_num
  have hW : totalWeight maxRetries ≠ 0 := ne_of_gt (totalWeight_pos maxRetries)
  calc (Finset.range (maxRetries + 1)).sum (attemptTimeout timeout maxRetries)
      = baseTimeout timeout maxRetries *
        (Finset.range (maxRetries + 1)).sum (fun n => (2 : ℚ) ^ n) := by
        rw [Finset.mul_sum]
        exact Finset.sum_congr rfl (fun n _ => rfl)
    _ = baseTimeout timeout maxRetries * totalWeight maxRetries := by
        rw [hgeom]; rfl
    _ = timeout := div_mul_cancel₀ timeout hW

/-- Closed witness for the schedule theorem at `timeout = 3`,
`max_retries = 1`. -/
theorem attemptTimeouts_sum_to_overall_witness :
    (0 : ℚ) < 3 ∧
    (baseTimeout 3 1 = 3 / (2 ^ 2 - 1) ∧
      (∀ n : Nat, attemptTimeout 3 1 n = baseTimeout 3 1 * 2 ^ n) ∧
      (Finset.range 2).sum (attemptTimeout 3 1) = 3) :=
  ⟨by norm_num, attemptTimeouts_sum_to_overall 3 1 (by norm_num)⟩

/-! ### Response streams of `_ActualConnection`
(`connection.py` lines 285-579).

The polling loop of an attempt is modelled by the finite list of packets
that arrive before the attempt deadline: the end of the list is the
deadline.  Per-attempt receive timeouts and the backoff sleeps only affect
real time, not which packets are seen, so they are not part of the model. -/

/-- The header fields the request streams inspect: `sequence` and
`pkt_type` (`lifx/protocol/header.py`). -/
structure PacketHeader where
  sequence : Nat
  pktType : Nat
deriving DecidableEq

/-- A parsed datagram: header plus raw payload bytes. -/
structure Packet where
  header : PacketHeader
  payload : List Nat
deriving DecidableEq

/-- `Device.StateUnhandled` packet type (`connection.py` line 41). -/
def STATE_UNHANDLED_PKT_TYPE : Nat := 223

/-- Modelled from the spec: `MessageBuilder.next_sequence`
(`lifx/network/message.py` is not in the source tree).  The spec describes
a monotonic 8-bit per-connection sequence counter that wraps, so attempt
`n` of a request gets sequence `(start + n) % 256`. -/
def nextSeq (start n : Nat) : Nat := (start + n) % 256

/-- Errors a request stream can raise from inside an attempt. -/
inductive AttemptError where
  | unsupportedCommand
  | protocolError
deriving DecidableEq

/-- Check `expected_pkt_type is not None and header.pkt_type !=
expected_pkt_type` (`connection.py` lines 419-422). -/
def wrongExpectedType (expected : Option Nat) (t : Nat) : Bool :=
  match expected with
  | some e => t != e
  | none => false

/-- One polling attempt of `request_stream` (`connection.py` lines
373-431): packets are taken in arrival order; a packet whose sequence
differs from the attempt's is dropped; `StateUnhandled` raises
`LifxUnsupportedCommandError`; a declared expected response type that does
not match raises `LifxProtocolError`; any other matching packet is
yielded.  Returns the yields of the attempt (appended to `yields`) and the
error, if one was raised before the deadline. -/
def runAttempt (expected : Option Nat) (seq : Nat) :
    List Packet → List Packet → List Packet × Option AttemptError
  | [], yields => (yields, none)
  | p :: rest, yields =>
    if p.header.sequence ≠ seq then
      runAttempt expected seq rest yields
    else if p.header.pktType = STATE_UNHANDLED_PKT_TYPE then
      (yields, some .unsupportedCommand)
    else if wrongExpectedType expected p.header.pktType then
      (yields, some .protocolError)
    else
      runAttempt expected seq rest (yields ++ [p])

/-- Terminal outcome of a full `request_stream` call. -/
inductive StreamOutcome where
  | success
  | timedOut
  | unsupportedCommand
  | protocolError
deriving DecidableEq

/-- The retry loop of `request_stream` (`connection.py` lines 352-449):
attempt `attempt` polls the packets `arrivals attempt` with a fresh
sequence number; an attempt that yielded nothing by its deadline times out
and is retried until `remaining` further retries are exhausted, after
which `LifxTimeoutError` is raised; an attempt that yielded at least one
response ends the stream successfully at its deadline. -/
def requestAttempts (expected : Option Nat) (startSeq : Nat)
    (arrivals : Nat → List Packet) :
    Nat → Nat → List Packet × StreamOutcome
  | attempt, remaining =>
    match runAttempt expected (nextSeq startSeq attempt) (arrivals attempt) [] with
    | (yields, some .unsupportedCommand) => (yields, .unsupportedCommand)
    | (yields, some .protocolError) => (yields, .protocolError)
    | (yields, none) =>
      if yields.isEmpty then
        match remaining with
        | 0 => ([], .timedOut)
        | r + 1 => requestAttempts expected startSeq arrivals (attempt + 1) r
      else (yields, .success)

/-- `request_stream` with overall retry budget `maxRetries`
(`connection.py` lines 285-449), as a function from the per-attempt
arrivals to the yielded responses and the terminal outcome. -/
def requestStream (expected : Option Nat) (startSeq maxRetries : Nat)
    (arrivals : Nat → List Packet) : List Packet × StreamOutcome :=
  requestAttempts expected startSeq arrivals 0 maxRetries

/-- Terminal outcome of one polling attempt of `request_ack_stream`. -/
inductive AckResult where
  | acked
  | timedOut
  | unsupportedCommand
deriving DecidableEq

/-- One polling attempt of `request_ack_stream` (`connection.py` lines
524-562): mismatched sequences are dropped, `StateUnhandled` raises
`LifxUnsupportedCommandError`, and any other packet with the matching
sequence is the acknowledgement. -/
def runAckAttempt (seq : Nat) : List Packet → AckResult
  | [] => .timedOut
  | p :: rest =>
    if p.header.sequence ≠ seq then runAckAttempt seq rest
    else if p.header.pktType = STATE_UNHANDLED_PKT_TYPE then .unsupportedCommand
    else .acked

theorem runAttempt_all_mismatch (expected : Option Nat) (seq : Nat)
    (pkts : List Packet) (yields : List Packet)
    (h : ∀ p ∈ pkts, p.header.sequence ≠ seq) :
    runAttempt expected seq pkts yields = (yields, none) := by
  induction pkts with
  | nil => rfl
  | cons p rest ih =>
    have hp : p.header.sequence ≠ seq := h p (List.mem_cons_self _ _)
    simp only [runAttempt, hp, ne_eq, not_false_eq_true, if_true]
    exact ih (fun q hq => h q (List.mem_cons_of_mem _ hq))

theorem requestAttempts_timeout (expected : Option Nat) (startSeq : Nat)
    (arrivals : Nat → List Packet) (remaining attempt : Nat)
    (h : ∀ n, attempt ≤ n → n ≤ attempt + remaining →
      ∀ p ∈ arrivals n, p.header.sequence ≠ nextSeq startSeq n) :
    requestAttempts expected startSeq arrivals attempt remaining =
      ([], .timedOut) := by
  induction remaining generalizing attempt with
  | zero =>
    have hrun := runAttempt_all_mismatch expected (nextSeq startSeq attempt)
      (arrivals attempt) [] (h attempt le_rfl (Nat.le_add_right _ _))
    simp [requestAttempts, hrun]
  | succ r ih =>
    have hrun := runAttempt_all_mismatch expected (nextSeq startSeq attempt)
      (arrivals attempt) [] (h attempt le_rfl (Nat.le_add_right _ _))
    simp only [requestAttempts, hrun, List.isEmpty_nil, if_true]
    refine ih (attempt + 1) ?_
    intro n h1 h2
    exact h n (by omega) (by omega)

/-- C1: if no packet with the attempt's sequence number arrives during any
of the `max_retries + 1` attempts, `request_stream` raises
`LifxTimeoutError` and yields nothing. -/
theorem requestStream_timeout_when_no_response (expected : Option Nat)
    (startSeq maxRetries : Nat) (arrivals : Nat → List Packet)
    (h : ∀ n, n ≤ maxRetries →
      ∀ p ∈ arrivals n, p.header.sequence ≠ nextSeq startSeq n) :
    requestStream expected startSeq maxRetries arrivals = ([], .timedOut) :=
  requestAttempts_timeout expected startSeq arrivals maxRetries 0
    (fun n _ h2 p hp => h n (by omega) p hp)

/-- Closed witness for C1: a stream with `max_retries = 2` where every
attempt only sees a packet with a foreign sequence number times out with
no yields. -/
theorem requestStream_timeout_witness :
    (∀ n, n ≤ 2 → ∀ p ∈ [Packet.mk ⟨99, 3⟩ []], p.header.sequence ≠ nextSeq 7 n) ∧
    requestStream (some 3) 7 2 (fun _ => [Packet.mk ⟨99, 3⟩ []]) =
      ([], .timedOut) := by
  constructor
  · decide
  · exact requestStream_timeout_when_no_response (some 3) 7 2
      (fun _ => [Packet.mk ⟨99, 3⟩ []]) (by decide)

/-- C3: in both `request_stream` and `request_ack_stream`, a received
packet whose header sequence differs from the current attempt's sequence
is silently dropped: it is not yielded, raises no error, and polling
continues exactly as if the packet had not arrived. -/
theorem mismatched_sequence_silently_dropped (expected : Option Nat)
    (seq : Nat) (p : Packet) (rest : List Packet) (yields : List Packet)
    (h : p.header.sequence ≠ seq) :
    runAttempt expected seq (p :: rest) yields = runAttempt expected seq rest yields ∧
    runAckAttempt seq (p :: rest) = runAckAttempt seq rest := by
  constructor
  · simp [runAttempt, h]
  · simp [runAckAttempt, h]

/-- Closed witness for C3 at a concrete mismatched packet. -/
theorem mismatched_sequence_silently_dropped_witness :
    (Packet.mk ⟨5, 223⟩ []).header.sequence ≠ 4 ∧
    (runAttempt (some 107) 4 [Packet.mk ⟨5, 223⟩ []] [] =
      runAttempt (some 107) 4 [] [] ∧
    runAckAttempt 4 [Packet.mk ⟨5, 223⟩ []] = runAckAttempt 4 []) :=
  ⟨by decide,
    mismatched_sequence_silently_dropped (some 107) 4 (Packet.mk ⟨5, 223⟩ [])
      [] [] (by decide)⟩

/-! ### `ConnectionPool` (`connection.py` lines 592-746).

The `OrderedDict` of connections is modelled as an association list in
recency order: the head is the least-recently-used entry, the tail end the
most-recently-used.  Wall-clock access times are not modelled (the pool
never reads them); a pooled connection is modelled by its serial and its
open flag, and connections closed by eviction are recorded in a log. -/

/-- Counters of `ConnectionPoolMetrics` (`connection.py` lines 45-92);
the eviction duration samples are wall-clock times and are not modelled. -/
structure PoolMetrics where
  hits : Nat
  misses : Nat
  evictions : Nat
  totalRequests : Nat
deriving DecidableEq

/-- The slice of `_ActualConnection` the pool inspects: its serial and
whether it is open. -/
structure PoolConn where
  serial : Nat
  isOpen : Bool
deriving DecidableEq

/-- State of a `ConnectionPool`: entries in LRU-to-MRU order, metrics, and
the serials of connections the pool has closed (in closing order). -/
structure PoolState where
  entries : List (Nat × PoolConn)
  metrics : PoolMetrics
  closedLog : List Nat
deriving DecidableEq

/-- A fresh pool (`ConnectionPool.__init__`). -/
def emptyPool : PoolState :=
  { entries := [], metrics := ⟨0, 0, 0, 0⟩, closedLog := [] }

/-- `OrderedDict.move_to_end(serial)`: move the binding of `serial` to the
most-recently-used end, keeping its value. -/
def moveToEnd {V : Type} (k : Nat) (m : List (Nat × V)) : List (Nat × V) :=
  match dictGet k m with
  | none => m
  | some v => dictDel k m ++ [(k, v)]

/-- The cache-miss path of `ConnectionPool.get_connection`
(`connection.py` lines 672-724): count the miss, create and open a new
connection, evict (close) the least-recently-used entry when the pool is
at capacity, then insert the new binding.  (`popitem` on an empty
`OrderedDict` would raise; that arm is unreachable for any capacity
of at least one.) -/
def poolMiss (maxConnections serial : Nat) (st : PoolState) : PoolState :=
  let st1 : PoolState :=
    { st with metrics := { st.metrics with misses := st.metrics.misses + 1 } }
  let st2 : PoolState :=
    if st1.entries.length ≥ maxConnections then
      match st1.entries with
      | [] => st1
      | lru :: rest =>
        { st1 with
          entries := rest
          closedLog := st1.closedLog ++ [lru.1]
          metrics := { st1.metrics with evictions := st1.metrics.evictions + 1 } }
    else st1
  { st2 with
    entries := dictSet serial { serial := serial, isOpen := true } st2.entries }

/-- `ConnectionPool.get_connection` (`connection.py` lines 624-724): count
the request; on a hit with an open connection count the hit and move the
entry to the most-recently-used end; otherwise take the miss path. -/
def getConnection (maxConnections serial : Nat) (st : PoolState) : PoolState :=
  let st1 : PoolState :=
    { st with metrics :=
        { st.metrics with totalRequests := st.metrics.totalRequests + 1 } }
  match dictGet serial st1.entries with
  | some conn =>
    if conn.isOpen then
      { st1 with
        metrics := { st1.metrics with hits := st1.metrics.hits + 1 }
        entries := moveToEnd serial st1.entries }
    else poolMiss maxConnections serial st1
  | none => poolMiss maxConnections serial st1

theorem dictDel_length_le {V : Type} (k : Nat) (m : List (Nat × V)) :
    (dictDel k m).length ≤ m.length :=
  List.length_filter_le _ m

theorem dictDel_cons_self {V : Type} (k : Nat) (hd : Nat × V) (t : List (Nat × V))
    (hk : hd.1 = k) : dictDel k (hd :: t) = dictDel k t := by
  simp [dictDel, List.filter_cons, hk]

theorem dictDel_cons_other {V : Type} (k : Nat) (hd : Nat × V) (t : List (Nat × V))
    (hk : hd.1 ≠ k) : dictDel k (hd :: t) = hd :: dictDel k t := by
  simp [dictDel, List.filter_cons, hk]

theorem dictDel_length_lt {V : Type} (k : Nat) (v : V) (m : List (Nat × V))
    (h : dictGet k m = some v) : (dictDel k m).length < m.length := by
  induction m with
  | nil => simp [dictGet] at h
  | cons hd t ih =>
    by_cases hk : hd.1 = k
    · have hle := dictDel_length_le k t
      rw [dictDel_cons_self k hd t hk]
      simp only [List.length_cons]
      omega
    · simp only [dictGet, hk, if_false] at h
      have := ih h
      rw [dictDel_cons_other k hd t hk]
      simp only [List.length_cons]
      omega

theorem moveToEnd_length_le {V : Type} (k : Nat) (m : List (Nat × V)) :
    (moveToEnd k m).length ≤ m.length := by
  unfold moveToEnd
  cases hg : dictGet k m with
  | none => simp
  | some v =>
    have := dictDel_length_lt k v m hg
    simp only [List.length_append, List.length_cons, List.length_nil]
    omega

theorem dictSet_length_le {V : Type} (k : Nat) (v : V) (m : List (Nat × V)) :
    (dictSet k v m).length ≤ m.length + 1 := by
  induction m with
  | nil => simp [dictSet]
  | cons hd t ih =>
    by_cases hk : hd.1 = k
    · simp [dictSet, hk]
    · simp only [dictSet, hk, if_false, List.length_cons]
      omega

theorem poolMiss_length_le (maxConnections serial : Nat) (st : PoolState)
    (hcap : 1 ≤ maxConnections) (hst : st.entries.length ≤ maxConnections) :
    (poolMiss maxConnections serial st).entries.length ≤ maxConnections := by
  unfold poolMiss
  dsimp only
  split
  next hfull =>
    split
    next hnil =>
      dsimp only
      simp only [hnil] at hst ⊢
      simp only [dictSet, List.length_cons, List.length_nil]
      omega
    next lru rest hcons =>
      dsimp only
      have := dictSet_length_le serial (PoolConn.mk serial true) rest
      rw [hcons] at hst
      simp only [List.length_cons] at hst
      omega
  next hfull =>
    dsimp only
    have := dictSet_length_le serial (PoolConn.mk serial true) st.entries
    omega

theorem getConnection_length_le (maxConnections serial : Nat) (st : PoolState)
    (hcap : 1 ≤ maxConnections) (hst : st.entries.length ≤ maxConnections) :
    (getConnection maxConnections serial st).entries.length ≤ maxConnections := by
  unfold getConnection
  dsimp only
  split
  next conn heq =>
    split
    next hopen =>
      dsimp only
      exact le_trans (moveToEnd_length_le serial st.entries) hst
    next hopen =>
      exact poolMiss_length_le maxConnections serial _ hcap hst
  next heq =>
    exact poolMiss_length_le maxConnections serial _ hcap hst

theorem poolMiss_at_capacity (maxConnections serial : Nat) (ents : List (Nat × PoolConn))
    (lru : Nat × PoolConn) (rest : List (Nat × PoolConn)) (mets : PoolMetrics)
    (log : List Nat) (hents : ents = lru :: rest)
    (hlen : ents.length = maxConnections) :
    poolMiss maxConnections serial ⟨ents, mets, log⟩ =
      ⟨dictSet serial ⟨serial, true⟩ rest,
        ⟨mets.hits, mets.misses + 1, mets.evictions + 1, mets.totalRequests⟩,
        log ++ [lru.1]⟩ := by
  subst hents
  unfold poolMiss
  dsimp only
  rw [if_pos (le_of_eq hlen.symm)]

theorem poolMiss_below_capacity (maxConnections serial : Nat)
    (ents : List (Nat × PoolConn)) (mets : PoolMetrics) (log : List Nat)
    (hlen : ents.length < maxConnections) :
    poolMiss maxConnections serial ⟨ents, mets, log⟩ =
      ⟨dictSet serial ⟨serial, true⟩ ents,
        ⟨mets.hits, mets.misses + 1, mets.evictions, mets.totalRequests⟩,
        log⟩ := by
  unfold poolMiss
  dsimp only
  rw [if_neg (by omega)]

/-- C5: the LRU connection pool.  Starting from an empty pool of capacity
`N ≥ 1`, (1) no call sequence ever makes the pool hold more than `N`
connections; (2) a request for an unpooled serial when the pool is at
capacity closes exactly the least-recently-used connection and removes it
before inserting the new one, counting one miss and one eviction; (3) a
request for a pooled open serial moves that entry to the
most-recently-used end and counts a hit; and (4) with capacity 2 the
requests S1, S2, S3 produce `evictions = 1`, `hits = 0`, `misses = 3`,
with exactly S1's connection closed. -/
theorem connectionPool_lru_behaviour (maxConnections : Nat)
    (hcap : 1 ≤ maxConnections) :
    (∀ serials : List Nat,
      ((serials.foldl (fun s q => getConnection maxConnections q s)
        emptyPool).entries.length ≤ maxConnections)) ∧
    (∀ (serial : Nat) (st : PoolState) (lru : Nat × PoolConn)
      (rest : List (Nat × PoolConn)),
      st.entries = lru :: rest → st.entries.length = maxConnections →
      dictGet serial st.entries = none →
      getConnection maxConnections serial st =
        ⟨dictSet serial ⟨serial, true⟩ rest,
          ⟨st.metrics.hits, st.metrics.misses + 1, st.metrics.evictions + 1,
            st.metrics.totalRequests + 1⟩,
          st.closedLog ++ [lru.1]⟩) ∧
    (∀ (serial : Nat) (st : PoolState) (conn : PoolConn),
      dictGet serial st.entries = some conn → conn.isOpen = true →
      getConnection maxConnections serial st =
        ⟨dictDel serial st.entries ++ [(serial, conn)],
          ⟨st.metrics.hits + 1, st.metrics.misses, st.metrics.evictions,
            st.metrics.totalRequests + 1⟩,
          st.closedLog⟩) ∧
    (([1, 2, 3].foldl (fun s q => getConnection 2 q s) emptyPool).metrics =
        ⟨0, 3, 1, 3⟩ ∧
      ([1, 2, 3].foldl (fun s q => getConnection 2 q s) emptyPool).closedLog =
        [1] ∧
      ([1, 2, 3].foldl (fun s q => getConnection 2 q s) emptyPool).entries.map
        Prod.fst = [2, 3]) := by
  refine ⟨?_, ?_, ?_, by decide, by decide, by decide⟩
  · intro serials
    suffices h : ∀ st : PoolState, st.entries.length ≤ maxConnections →
        ((serials.foldl (fun s q => getConnection maxConnections q s)
          st).entries.length ≤ maxConnections) by
      exact h emptyPool (by simp [emptyPool])
    induction serials with
    | nil => intro st hst; simpa using hst
    | cons q rest ih =>
      intro st hst
      exact ih _ (getConnection_length_le maxConnections q st hcap hst)
  · intro serial st lru rest hents hlen hget
    obtain ⟨ents, mets, log⟩ := st
    dsimp only at hents hlen hget ⊢
    unfold getConnection
    dsimp only
    rw [hget]
    exact poolMiss_at_capacity maxConnections serial ents lru rest _ log hents hlen
  · intro serial st conn hget hopen
    obtain ⟨ents, mets, log⟩ := st
    dsimp only at hget ⊢
    unfold getConnection
    dsimp only
    rw [hget]
    dsimp only
    rw [if_pos hopen]
    unfold moveToEnd
    rw [hget]

/-- Closed witness for the pool theorem at capacity 2: the S1, S2, S3
eviction scenario. -/
theorem connectionPool_lru_behaviour_witness :
    1 ≤ 2 ∧
    (([1, 2, 3].foldl (fun s q => getConnection 2 q s) emptyPool).metrics =
        ⟨0, 3, 1, 3⟩ ∧
      ([1, 2, 3].foldl (fun s q => getConnection 2 q s) emptyPool).closedLog =
        [1] ∧
      ([1, 2, 3].foldl (fun s q => getConnection 2 q s) emptyPool).entries.map
        Prod.fst = [2, 3]) :=
  ⟨by decide, (connectionPool_lru_behaviour 2 (by decide)).2.2.2⟩

/-! ### Colours and conductor data model.

`lifx/color.py`, `lifx/effects/models.py` and `lifx/devices/light.py` are
not part of the source tree; the record shapes below follow the spec's
data model section. -/

/-- An HSBK colour as the effects construct it (`lifx/color.py`): hue in
degrees, saturation and brightness as fractions, kelvin as an integer
temperature.  The numeric fields are real, matching Python floats fed by
`math.sin`-style arithmetic. -/
structure HSBK where
  hue : ℝ
  saturation : ℝ
  brightness : ℝ
  kelvin : ℤ

/-- Modelled from the spec: `PreState` (`lifx/effects/models.py` is not in
the source tree): `{power, color, optional zone colours}` captured at
effect start. -/
structure PreState where
  power : Bool
  color : HSBK
  zoneColors : Option (List HSBK)

/-- Modelled from the spec: the slice of a `Light` device the conductor
reads (`lifx/devices/light.py` is not in the source tree): its serial
identity.  Serials are 48-bit identities, modelled as `Nat`. -/
structure LightDev where
  serial : Nat

/-- Modelled from the spec: `RunningEffect` (`lifx/effects/models.py` is
not in the source tree): `{effect, prestate, task}`.  The effect and task
objects are compared by Python identity (`is`), modelled as `Nat` ids. -/
structure RunningEffectRec where
  effectId : Nat
  prestate : PreState
  taskId : Nat

/-- `Conductor.effect(light)` (`conductor.py` lines 61-78): the effect of
the running entry for the light's serial, or `none`. -/
def conductorEffect (running : List (Nat × RunningEffectRec)) (light : LightDev) :
    Option Nat :=
  (dictGet light.serial running).map (fun r => r.effectId)

/-- Effect of `Conductor.stop(lights)` (`conductor.py` lines 249-326) on
the `_running` registry: after the tasks are cancelled and the pre-states
restored, every serial in `lights` is deleted from the registry
(`if serial in self._running: del self._running[serial]`); restoration and
task cancellation do not touch the registry. -/
def conductorStop (running : List (Nat × RunningEffectRec))
    (lights : List LightDev) : List (Nat × RunningEffectRec) :=
  lights.foldl (fun m l => dictDel l.serial m) running

theorem conductorStop_lookup_none (running : List (Nat × RunningEffectRec))
    (lights : List LightDev) (serial : Nat)
    (h : dictGet serial running = none) :
    dictGet serial (conductorStop running lights) = none := by
  induction lights generalizing running with
  | nil => simpa [conductorStop] using h
  | cons l rest ih =>
    simp only [conductorStop, List.foldl_cons]
    exact ih (dictDel l.serial running) (dictGet_dictDel_none serial l.serial running h)

/-- C4: after `Conductor.stop(lights)` returns, `Conductor.effect(s)` is
`None` for every light `s` in `lights`, whether or not an effect was
running on `s`. -/
theorem conductorStop_effect_none (running : List (Nat × RunningEffectRec))
    (lights : List LightDev) (s : LightDev) (hs : s ∈ lights) :
    conductorEffect (conductorStop running lights) s = none := by
  suffices h : dictGet s.serial (conductorStop running lights) = none by
    simp [conductorEffect, h]
  induction lights generalizing running with
  | nil => simp at hs
  | cons l rest ih =>
    simp only [conductorStop, List.foldl_cons]
    rcases List.mem_cons.mp hs with heq | hmem
    · exact conductorStop_lookup_none (dictDel l.serial running) rest s.serial
        (heq ▸ dictGet_dictDel_self s.serial running)
    · exact ih (dictDel l.serial running) hmem

/-- Closed witness for C4: stopping two lights, one with a running effect
and one idle, leaves both without an effect. -/
theorem conductorStop_effect_none_witness :
    LightDev.mk 5 ∈ [LightDev.mk 5, LightDev.mk 9] ∧
    conductorEffect
      (conductorStop
        [(5, ⟨77, ⟨true, ⟨0, 0, 0, 3500⟩, none⟩, 12⟩)]
        [LightDev.mk 5, LightDev.mk 9])
      (LightDev.mk 5) = none :=
  ⟨by simp, conductorStop_effect_none
    [(5, ⟨77, ⟨true, ⟨0, 0, 0, 3500⟩, none⟩, 12⟩)]
    [LightDev.mk 5, LightDev.mk 9] (LightDev.mk 5) (by simp)⟩

/-- Conductor state relevant to one effect: the effect's published
`participants` list and the `_running` registry. -/
structure EffectState where
  participants : List LightDev
  running : List (Nat × RunningEffectRec)

/-- `Conductor.add_lights(effect, lights)` (`conductor.py` lines 328-417):
filter the candidate lights through the effect's compatibility check
(order-preserving, as `_filter_compatible_lights`); skip lights whose
serial is already registered as running this very effect; find the task
reference of the first running entry for this effect; capture a fresh
pre-state per new light; append the new lights to `effect.participants`;
and register each new light in `_running` under the existing task.  The
effect's compatibility predicate and the state capture are passed as
functions; animator creation touches no state modelled here. -/
def addLights (compat : LightDev → Bool) (capture : LightDev → PreState)
    (e : Nat) (st : EffectState) (lights : List LightDev) : EffectState :=
  let compatible := lights.filter compat
  if compatible.isEmpty then st
  else
    let newLights := compatible.filter (fun l =>
      match dictGet l.serial st.running with
      | some r => r.effectId != e
      | none => true)
    if newLights.isEmpty then st
    else
      match st.running.find? (fun p => p.2.effectId == e) with
      | none => st
      | some entry =>
        { participants := st.participants ++ newLights
          running := newLights.foldl
            (fun m l => dictSet l.serial ⟨e, capture l, entry.2.taskId⟩ m)
            st.running }

theorem foldl_dictSet_lookup_other {V : Type} (f : LightDev → V)
    (xs : List LightDev) (m : List (Nat × V)) (s : Nat)
    (hs : s ∉ xs.map LightDev.serial) :
    dictGet s (xs.foldl (fun m2 x => dictSet x.serial (f x) m2) m) =
      dictGet s m := by
  induction xs generalizing m with
  | nil => rfl
  | cons x rest ih =>
    simp only [List.map_cons, List.mem_cons, not_or] at hs
    simp only [List.foldl_cons]
    rw [ih (dictSet x.serial (f x) m) hs.2]
    exact dictGet_dictSet_other x.serial s (f x) m hs.1

theorem foldl_dictSet_lookup {V : Type} (f : LightDev → V)
    (xs : List LightDev) (m : List (Nat × V))
    (hnd : (xs.map LightDev.serial).Nodup) (l : LightDev) (hl : l ∈ xs) :
    dictGet l.serial (xs.foldl (fun m2 x => dictSet x.serial (f x) m2) m) =
      some (f l) := by
  induction xs generalizing m with
  | nil => simp at hl
  | cons x rest ih =>
    simp only [List.map_cons, List.nodup_cons] at hnd
    simp only [List.foldl_cons]
    rcases List.mem_cons.mp hl with heq | hmem
    · subst heq
      rw [foldl_dictSet_lookup_other f rest (dictSet l.serial (f l) m)
        l.serial hnd.1]
      exact dictGet_dictSet_self l.serial (f l) m
    · exact ih (dictSet x.serial (f x) m) hnd.2 hmem

/-- C6: if `start(e, P)` registered `P` for effect `e` (each serial of `P`
mapped to `e` and its task, and no other serial running `e`) and `e` is
still running (`P` non-empty), then after `add_lights(e, L)` the
participants are exactly `P ++ Lnew`, where `Lnew` keeps the compatible
members of `L` whose serial is not already a participant of `e`, in
order; and each light of `Lnew` is registered in the running map with a
freshly captured pre-state under `e`'s existing task. -/
theorem addLights_appends_new_compatible (compat : LightDev → Bool)
    (capture : LightDev → PreState) (e task : Nat)
    (pre : LightDev → PreState) (st : EffectState) (P L : List LightDev)
    (hpart : st.participants = P)
    (hnd : (st.running.map Prod.fst).Nodup)
    (hP : ∀ l ∈ P, dictGet l.serial st.running = some ⟨e, pre l, task⟩)
    (honly : ∀ s r, dictGet s st.running = some r → r.effectId = e →
      s ∈ P.map LightDev.serial)
    (hPne : P ≠ [])
    (hLnd : (L.map LightDev.serial).Nodup) :
    (addLights compat capture e st L).participants =
      P ++ (L.filter compat).filter
        (fun l => decide (l.serial ∉ P.map LightDev.serial)) ∧
    ∀ l ∈ (L.filter compat).filter
        (fun l => decide (l.serial ∉ P.map LightDev.serial)),
      dictGet l.serial (addLights compat capture e st L).running =
        some ⟨e, capture l, task⟩ := by
  -- the code's skip predicate agrees with membership in P's serials
  have hpred : ∀ l ∈ L.filter compat,
      (match dictGet l.serial st.running with
        | some r => r.effectId != e
        | none => true) =
      decide (l.serial ∉ P.map LightDev.serial) := by
    intro l _
    cases hdg : dictGet l.serial st.running with
    | none =>
      have hnotmem : l.serial ∉ P.map LightDev.serial := by
        intro hmem
        rcases List.mem_map.mp hmem with ⟨p, hpP, hps⟩
        have := hP p hpP
        rw [hps] at this
        rw [hdg] at this
        exact Option.noConfusion this
      simp [hnotmem]
    | some r =>
      by_cases hre : r.effectId = e
      · have hmem : l.serial ∈ P.map LightDev.serial := honly l.serial r hdg hre
        simp [hre, hmem]
      · have hnotmem : l.serial ∉ P.map LightDev.serial := by
          intro hmem
          rcases List.mem_map.mp hmem with ⟨p, hpP, hps⟩
          have := hP p hpP
          rw [hps] at this
          rw [hdg] at this
          exact hre (by injection this with h2; rw [h2])
        simp [hre, hnotmem]
  have hfeq : (L.filter compat).filter (fun l =>
      match dictGet l.serial st.running with
      | some r => r.effectId != e
      | none => true) =
    (L.filter compat).filter
      (fun l => decide (l.serial ∉ P.map LightDev.serial)) :=
    List.filter_congr hpred
  -- the first running entry for e carries the task of P's registration
  obtain ⟨p0, Prest, hPcons⟩ : ∃ p0 Prest, P = p0 :: Prest := by
    cases P with
    | nil => exact absurd rfl hPne
    | cons a b => exact ⟨a, b, rfl⟩
  have hp0 : dictGet p0.serial st.running = some ⟨e, pre p0, task⟩ :=
    hP p0 (by rw [hPcons]; exact List.mem_cons_self _ _)
  have hp0mem : (p0.serial, (⟨e, pre p0, task⟩ : RunningEffectRec)) ∈ st.running :=
    dictGet_mem _ _ _ hp0
  have hfind : ∃ entry, st.running.find? (fun p => p.2.effectId == e) = some entry ∧
      entry.2.taskId = task ∧ entry.2.effectId = e := by
    cases hf : st.running.find? (fun p => p.2.effectId == e) with
    | none =>
      have := List.find?_eq_none.mp hf _ hp0mem
      simp at this
    | some entry =>
      refine ⟨entry, rfl, ?_, ?_⟩
      · have hprop : entry.2.effectId = e := by
          have := List.find?_some hf
          simpa using this
        have hentmem : entry ∈ st.running := List.mem_of_find?_eq_some hf
        have hlook : dictGet entry.1 st.running = some entry.2 :=
          dictGet_of_mem_nodup st.running entry hnd hentmem
        have hserP : entry.1 ∈ P.map LightDev.serial :=
          honly entry.1 entry.2 hlook hprop
        rcases List.mem_map.mp hserP with ⟨p, hpP, hps⟩
        have := hP p hpP
        rw [hps, hlook] at this
        injection this with h2
        rw [h2]
      · have := List.find?_some hf
        simpa using this
  obtain ⟨entry, hfindeq, htask, heid⟩ := hfind
  -- case analysis on the early-return branches of add_lights
  unfold addLights
  by_cases hcemp : (L.filter compat).isEmpty
  · have hle : L.filter compat = [] := List.isEmpty_iff.mp hcemp
    simp only [hcemp, if_true, hle, List.filter_nil]
    constructor
    · simp [hpart]
    · intro l hl
      simp at hl
  · simp only [hcemp, if_false]
    rw [hfeq]
    by_cases hnemp : ((L.filter compat).filter
        (fun l => decide (l.serial ∉ P.map LightDev.serial))).isEmpty
    · have hle := List.isEmpty_iff.mp hnemp
      simp only [hnemp, if_true, hle]
      constructor
      · simp [hpart]
      · intro l hl
        simp at hl
    · simp only [hnemp, if_false, hfindeq]
      constructor
      · simp [hpart]
      · intro l hl
        have hsubnd : (((L.filter compat).filter
            (fun l => decide (l.serial ∉ P.map LightDev.serial))).map
              LightDev.serial).Nodup := by
          refine List.Nodup.sublist (List.Sublist.map LightDev.serial ?_) hLnd
          exact (List.filter_sublist (L.filter compat)).trans (List.filter_sublist L)
        have hfold := foldl_dictSet_lookup
          (fun l2 => (⟨e, capture l2, entry.2.taskId⟩ : RunningEffectRec))
          _ st.running hsubnd l hl
        rw [← htask]
        exact hfold

/-- Closed witness for C6 at a concrete state: `P = [light 1]` running
effect 8 under task 40, adding `L = [light 1, light 2]` appends only
light 2 and registers it under task 40. -/
theorem addLights_appends_new_compatible_witness :
    (addLights (fun _ => true)
        (fun l => ⟨true, ⟨0, 0, 0, 3500⟩, none⟩) 8
        ⟨[LightDev.mk 1],
          [(1, ⟨8, ⟨false, ⟨0, 0, 0, 2700⟩, none⟩, 40⟩)]⟩
        [LightDev.mk 1, LightDev.mk 2]).participants =
      [LightDev.mk 1] ++
        (([LightDev.mk 1, LightDev.mk 2].filter (fun _ => true)).filter
          (fun l => decide (l.serial ∉ [LightDev.mk 1].map LightDev.serial))) := by
  have h := addLights_appends_new_compatible (fun _ => true)
    (fun l => ⟨true, ⟨0, 0, 0, 3500⟩, none⟩) 8 40
    (fun _ => ⟨false, ⟨0, 0, 0, 2700⟩, none⟩)
    ⟨[LightDev.mk 1], [(1, ⟨8, ⟨false, ⟨0, 0, 0, 2700⟩, none⟩, 40⟩)]⟩
    [LightDev.mk 1] [LightDev.mk 1, LightDev.mk 2]
    rfl (by simp)
    (by
      intro l hl
      simp only [List.mem_singleton] at hl
      subst hl
      rfl)
    (by
      intro s r hdg hre
      simp only [dictGet] at hdg
      by_cases hs : s = 1
      · simp [hs]
      · rw [if_neg (fun hcon => hs hcon.symm)] at hdg
        exact Option.noConfusion hdg)
    (by simp)
    (by simp)
  exact h.1

/-! ### Frame effects.

The effect generators (`rainbow.py`, `flame.py`, `aurora.py`,
`colorloop.py`, `progress.py`, `sunrise.py`) compute with Python floats
through `math.sin`, `math.exp` and float `**`; they are embedded over `ℝ`.
Python's `round` is banker's rounding; it is modelled by `round : ℝ → ℤ`
(round-half-up) — the two differ only at exact halves, which none of the
proved properties touch. -/

/-- Python float modulo `a % b` for `b > 0`:
`a - b * floor(a / b)`. -/
noncomputable def fmod (a b : ℝ) : ℝ := a - b * ⌊a / b⌋

/-- Python `round(x)` re-embedded as a real number. -/
noncomputable def rnd (x : ℝ) : ℝ := ((round x : ℤ) : ℝ)

/-- The pattern `max(0.0, min(1.0, x))` used by every generator to clamp
brightness into `[0, 1]`. -/
def clamp01 (x : ℝ) : ℝ := max 0 (min 1 x)

/-- Modelled from the spec: `KELVIN_NEUTRAL` from `lifx/const.py` (not in
the source tree); the neutral white point, 3500 K in the test suite. -/
def KELVIN_NEUTRAL : ℤ := 3500

/-- `FrameContext` (`frame_effect.py` lines 29-45). -/
structure FrameContext where
  elapsed : ℝ
  deviceIndex : Nat
  pixelCount : Nat
  canvasWidth : Nat
  canvasHeight : Nat

/-- The geometry an `Animator` exposes to the frame loop
(`pixel_count`, `canvas_width`, `canvas_height`). -/
structure AnimatorInfo where
  pixelCount : Nat
  canvasWidth : Nat
  canvasHeight : Nat

/-- One tick of the frame loop of `FrameEffect.async_play`
(`frame_effect.py` lines 151-186): enumerate the animators, build a
`FrameContext` from each animator's geometry, call `generate_frame(ctx)`,
and hand the frame to that animator (`send_frame` converts each colour to
a protocol tuple with `as_tuple`, a per-colour map that preserves the
frame's length; the result lists the HSBK frames handed over, in animator
order).  The loop performs no check on the generated frame. -/
def frameTickAux (generate : FrameContext → List HSBK) (elapsed : ℝ) :
    Nat → List AnimatorInfo → List (List HSBK)
  | _, [] => []
  | idx, a :: rest =>
    generate
      { elapsed := elapsed, deviceIndex := idx, pixelCount := a.pixelCount,
        canvasWidth := a.canvasWidth, canvasHeight := a.canvasHeight } ::
    frameTickAux generate elapsed (idx + 1) rest

/-- One tick of the frame loop, starting the `enumerate` at index 0. -/
def frameTick (generate : FrameContext → List HSBK) (elapsed : ℝ)
    (animators : List AnimatorInfo) : List (List HSBK) :=
  frameTickAux generate elapsed 0 animators

/-- Parameters of `EffectRainbow` (`rainbow.py` lines 52-88). -/
structure RainbowParams where
  period : ℝ
  brightness : ℝ
  saturation : ℝ
  spread : ℝ

/-- `EffectRainbow.generate_frame` (`rainbow.py` lines 95-128). -/
noncomputable def rainbowFrame (p : RainbowParams) (ctx : FrameContext) :
    List HSBK :=
  let degreesScrolled := ctx.elapsed / p.period * 360
  let deviceOffset := fmod ((ctx.deviceIndex : ℝ) * p.spread) 360
  (List.range ctx.pixelCount).map (fun (i : Nat) =>
    let pixelOffset := (i : ℝ) / (ctx.pixelCount : ℝ) * 360
    { hue := rnd (fmod (degreesScrolled + deviceOffset + pixelOffset) 360)
      saturation := p.saturation
      brightness := p.brightness
      kelvin := KELVIN_NEUTRAL })

/-- Parameters of `EffectFlame` (`flame.py` lines 50-93). -/
structure FlameParams where
  intensity : ℝ
  speed : ℝ
  kelvinMin : ℤ
  kelvinMax : ℤ
  brightness : ℝ

/-- `EffectFlame._flicker` (`flame.py` lines 100-116): three layered sine
waves combined to a flicker scalar. -/
noncomputable def flicker (t seed : ℝ) : ℝ :=
  let v1 := Real.sin (t * 3.7 + seed * 17.1) * 0.5 + 0.5
  let v2 := Real.sin (t * 7.3 + seed * 31.7) * 0.25 + 0.5
  let v3 := Real.sin (t * 13.1 + seed * 53.3) * 0.125 + 0.5
  (v1 + v2 + v3) / 3

/-- The loop body of `EffectFlame.generate_frame` (`flame.py` lines
134-168) for pixel `i`: flicker-driven brightness with the matrix
vertical falloff `(1 - (y/H) ** 0.7)` applied when the canvas has more
than one row. -/
noncomputable def flamePixel (p : FlameParams) (ctx : FrameContext)
    (i : Nat) : HSBK :=
  let t := ctx.elapsed * p.speed
  let kelvinRange := p.kelvinMax - p.kelvinMin
  let seed := (i : ℝ) / ((max ctx.pixelCount 1 : ℕ) : ℝ)
  let fl := flicker t seed
  let pb0 := p.brightness * (1 - p.intensity + p.intensity * fl)
  let y : Nat := i / ctx.canvasWidth
  let pb1 :=
    if 1 < ctx.canvasHeight then
      pb0 * (1 - ((y : ℝ) / (ctx.canvasHeight : ℝ)) ^ (0.7 : ℝ))
    else pb0
  { hue := rnd (fl * 40)
    saturation := 0.85 + 0.15 * (1 - fl)
    brightness := clamp01 pb1
    kelvin := round ((p.kelvinMin : ℝ) + fl * (kelvinRange : ℝ)) }

/-- `EffectFlame.generate_frame` (`flame.py` lines 118-170). -/
noncomputable def flameFrame (p : FlameParams) (ctx : FrameContext) :
    List HSBK :=
  (List.range ctx.pixelCount).map (flamePixel p ctx)

/-- Parameters of `EffectAurora` (`aurora.py` lines 50-92); `palette`
holds the validated hue stops. -/
structure AuroraParams where
  speed : ℝ
  brightness : ℝ
  palette : List ℤ
  spread : ℝ

/-- `EffectAurora._palette_hue` (`aurora.py` lines 99-122): palette
interpolation with shortest-path hue wrapping.  The argument `position`
is always in `[0, 1)` at call sites, so Python's truncating `int()`
agrees with the floor used here. -/
noncomputable def paletteHue (palette : List ℤ) (position : ℝ) : ℝ :=
  let n := palette.length
  let scaled := position * (n : ℝ)
  let idx := (⌊scaled⌋).toNat % n
  let frac := scaled - ((⌊scaled⌋ : ℤ) : ℝ)
  let h1 := ((palette.getD idx 0 : ℤ) : ℝ)
  let h2 := ((palette.getD ((idx + 1) % n) 0 : ℤ) : ℝ)
  let diff0 := h2 - h1
  let diff :=
    if diff0 > 180 then diff0 - 360
    else if diff0 < -180 then diff0 + 360
    else diff0
  rnd (fmod (h1 + frac * diff) 360)

/-- `EffectAurora.generate_frame` (`aurora.py` lines 124-174). -/
noncomputable def auroraFrame (p : AuroraParams) (ctx : FrameContext) :
    List HSBK :=
  let t := ctx.elapsed * p.speed * 0.05
  let deviceOffset := (ctx.deviceIndex : ℝ) * p.spread / 360
  (List.range ctx.pixelCount).map (fun (i : Nat) =>
    let position :=
      fmod ((i : ℝ) / ((max ctx.pixelCount 1 : ℕ) : ℝ) + t + deviceOffset) 1
    let hue := paletteHue p.palette position
    let brightnessMod := 0.5 + 0.5 * Real.sin
      ((i : ℝ) / ((max ctx.pixelCount 1 : ℕ) : ℝ) * Real.pi * 3 + t * 6)
    let pb0 := p.brightness * brightnessMod
    let y : Nat := i / ctx.canvasWidth
    let pb1 :=
      if 1 < ctx.canvasHeight then
        pb0 * Real.sin (((y : ℝ) /
          ((max (ctx.canvasHeight - 1) 1 : ℕ) : ℝ)) * Real.pi)
      else pb0
    { hue := hue
      saturation := 0.7 + 0.3 * Real.sin (position * 2 * Real.pi)
      brightness := clamp01 pb1
      kelvin := KELVIN_NEUTRAL })

/-- Parameters of `EffectColorloop` (`colorloop.py` lines 62-133) used by
`generate_frame`. -/
structure ColorloopParams where
  period : ℝ
  spread : ℝ
  brightness : Option ℝ
  saturationMin : ℝ
  saturationMax : ℝ
  synchronized : Bool

/-- `EffectColorloop._generate_synchronized_color` (`colorloop.py` lines
186-221).  Python's `int()` on the positive kelvin average truncates,
matching the floor here. -/
noncomputable def colorloopSyncColor (p : ColorloopParams)
    (initialColors : List HSBK) (degreesRotated : ℝ) : HSBK :=
  let baseHue := (initialColors.headD ⟨0, 1, 0.8, 3500⟩).hue
  let newHue := rnd (fmod (baseHue + degreesRotated) 360)
  let sharedSaturation := (p.saturationMin + p.saturationMax) / 2
  let sharedBrightness :=
    match p.brightness with
    | some b => b
    | none => (initialColors.map HSBK.brightness).sum / initialColors.length
  let sharedKelvin : ℤ :=
    ⌊((initialColors.map (fun c => ((c.kelvin : ℤ) : ℝ))).sum /
      initialColors.length)⌋
  { hue := newHue, saturation := sharedSaturation,
    brightness := sharedBrightness, kelvin := sharedKelvin }

/-- `EffectColorloop._generate_spread_color` (`colorloop.py` lines
223-259). -/
noncomputable def colorloopSpreadColor (p : ColorloopParams)
    (initialColors : List HSBK) (degreesRotated : ℝ) (deviceIndex : Nat) :
    HSBK :=
  let colorIndex := min deviceIndex (initialColors.length - 1)
  let c := initialColors.getD colorIndex ⟨0, 1, 0.8, 3500⟩
  let deviceSpreadOffset := fmod ((deviceIndex : ℝ) * p.spread) 360
  let newHue := rnd (fmod (c.hue + degreesRotated + deviceSpreadOffset) 360)
  let brightness :=
    match p.brightness with
    | some b => b
    | none => c.brightness
  let saturation := (p.saturationMin + p.saturationMax) / 2
  { hue := newHue, saturation := saturation, brightness := brightness,
    kelvin := c.kelvin }

/-- `EffectColorloop.generate_frame` (`colorloop.py` lines 157-184):
every pixel of a device gets the same colour; with no initial colours the
fallback frame is used; `direction` is the random `±1` picked at setup. -/
noncomputable def colorloopFrame (p : ColorloopParams)
    (initialColors : List HSBK) (direction : ℤ) (ctx : FrameContext) :
    List HSBK :=
  if initialColors.isEmpty then
    List.replicate ctx.pixelCount ⟨0, 1, 0.8, 3500⟩
  else
    let degreesRotated := ctx.elapsed / p.period * 360 * (direction : ℝ)
    let color :=
      if p.synchronized then colorloopSyncColor p initialColors degreesRotated
      else colorloopSpreadColor p initialColors degreesRotated ctx.deviceIndex
    List.replicate ctx.pixelCount color

/-- Parameters of `EffectProgress` (`progress.py` lines 64-129); the
foreground is a solid colour or a gradient of stops. -/
structure ProgressParams where
  startValue : ℝ
  endValue : ℝ
  position : ℝ
  foreground : HSBK ⊕ List HSBK
  background : HSBK
  spotBrightness : ℝ
  spotWidth : ℝ
  spotSpeed : ℝ

/-- `EffectProgress._gradient_color` (`progress.py` lines 136-171). -/
noncomputable def gradientColor (stops : List HSBK) (position : ℝ) : HSBK :=
  let pos := max 0 (min 1 position)
  let n := stops.length - 1
  let scaled := pos * (n : ℝ)
  let idx := min (⌊scaled⌋).toNat (n - 1)
  let frac := scaled - (idx : ℝ)
  let c1 := stops.getD idx ⟨0, 0, 0, 0⟩
  let c2 := stops.getD (idx + 1) ⟨0, 0, 0, 0⟩
  let hueDiff0 := c2.hue - c1.hue
  let hueDiff :=
    if hueDiff0 > 180 then hueDiff0 - 360
    else if hueDiff0 < -180 then hueDiff0 + 360
    else hueDiff0
  { hue := rnd (fmod (c1.hue + frac * hueDiff) 360)
    saturation := c1.saturation + frac * (c2.saturation - c1.saturation)
    brightness := c1.brightness + frac * (c2.brightness - c1.brightness)
    kelvin := round ((c1.kelvin : ℝ) + frac * ((c2.kelvin - c1.kelvin : ℤ) : ℝ)) }

/-- `EffectProgress._foreground_at` (`progress.py` lines 173-188). -/
noncomputable def foregroundAt (fg : HSBK ⊕ List HSBK) (position : ℝ) : HSBK :=
  match fg with
  | .inl c => c
  | .inr stops => gradientColor stops position

/-- `EffectProgress.generate_frame` (`progress.py` lines 190-245). -/
noncomputable def progressFrame (p : ProgressParams) (ctx : FrameContext) :
    List HSBK :=
  let valueRange := p.endValue - p.startValue
  let fill0 := if valueRange > 0 then (p.position - p.startValue) / valueRange else 0
  let fill := max 0 (min 1 fill0)
  let fillEnd : ℤ := round (fill * (ctx.pixelCount : ℝ))
  let spotPos :=
    if fillEnd > 0 then
      (fillEnd : ℝ) * ((Real.sin (ctx.elapsed * p.spotSpeed * 2 * Real.pi) + 1) / 2)
    else 0
  let spotPixelWidth :=
    if fillEnd > 0 then max 1 (p.spotWidth * (fillEnd : ℝ)) else 1
  (List.range ctx.pixelCount).map (fun (i : Nat) =>
    if (i : ℤ) < fillEnd then
      let barPos := (i : ℝ) / ((max (ctx.pixelCount - 1) 1 : ℕ) : ℝ)
      let base := foregroundAt p.foreground barPos
      let dist := |(i : ℝ) - spotPos|
      let boost := Real.exp (-((dist / spotPixelWidth) ^ (2 : ℕ)))
      { hue := base.hue
        saturation := base.saturation
        brightness := clamp01
          (base.brightness + boost * (p.spotBrightness - base.brightness))
        kelvin := base.kelvin }
    else p.background)

/-- Sun origin of `EffectSunrise` / `EffectSunset`
(`sunrise.py` lines 20-21). -/
inductive SunOrigin where
  | bottom
  | center
deriving DecidableEq

/-- `_sun_frame` (`sunrise.py` lines 24-145): the radial five-phase sun
model shared by sunrise and sunset. -/
noncomputable def sunFrame (ctx : FrameContext) (progress0 brightness : ℝ)
    (origin : SunOrigin) : List HSBK :=
  let progress := max 0 (min 1 progress0)
  let cx := ((ctx.canvasWidth : ℝ) - 1) / 2
  let cy :=
    match origin with
    | .center => ((ctx.canvasHeight : ℝ) - 1) / 2
    | .bottom => (ctx.canvasHeight : ℝ) - 1
  let maxDist := if cx > 0 ∨ cy > 0 then Real.sqrt (cx * cx + cy * cy) else 1
  let spread := (0.6 : ℝ)
  (List.range ctx.pixelCount).map (fun (i : Nat) =>
    let x := i % ctx.canvasWidth
    let y := i / ctx.canvasWidth
    let dx := (x : ℝ) - cx
    let dy := (y : ℝ) - cy
    let dist := Real.sqrt (dx * dx + dy * dy)
    let normDist := if maxDist > 0 then dist / maxDist else 0
    let pp := max 0 (min 1 (progress * (1 + spread) - normDist * spread))
    let ppBright := pp ^ (2.2 : ℝ)
    let phaseData : ℝ × ℝ × ℝ × ℤ :=
      if pp < 0.2 then
        let phase := pp / 0.2
        (240, 0.8, brightness * 0.02 * (1 + phase * 2), 1500)
      else if pp < 0.4 then
        let phase := (pp - 0.2) / 0.2
        (rnd (280 + phase * 60), 0.7 + 0.2 * (1 - normDist),
          brightness * (0.06 + 0.14 * phase), round ((1500 : ℝ) + phase * 500))
      else if pp < 0.6 then
        let phase := (pp - 0.4) / 0.2
        (rnd (20 + phase * 20), 0.8 - 0.2 * phase, brightness * ppBright,
          round ((2000 : ℝ) + phase * 1000))
      else if pp < 0.8 then
        let phase := (pp - 0.6) / 0.2
        (rnd (50 + phase * 10), 0.6 - 0.3 * phase, brightness * ppBright,
          round ((3000 : ℝ) + phase * 500))
      else
        let phase := (pp - 0.8) / 0.2
        (60, max 0.1 (0.3 - 0.2 * phase), brightness * ppBright,
          round ((3500 : ℝ) + phase * 500))
    let proximity := max 0 (1 - normDist * 1.5)
    let pb1 := phaseData.2.2.1 * (0.5 + 0.5 * proximity)
    let warmth := 1 - normDist * 2
    let hue1 :=
      if normDist < 0.5 then max 0 (phaseData.1 - rnd (warmth * 20))
      else phaseData.1
    let sat1 :=
      if normDist < 0.5 then min 1 (phaseData.2.1 + warmth * 0.2)
      else phaseData.2.1
    { hue := max 0 (min 360 hue1)
      saturation := sat1
      brightness := clamp01 pb1
      kelvin := phaseData.2.2.2 })

/-- `EffectSunrise.generate_frame` (`sunrise.py` lines 218-230). -/
noncomputable def sunriseFrame (duration brightness : ℝ) (origin : SunOrigin)
    (ctx : FrameContext) : List HSBK :=
  sunFrame ctx (if duration ≠ 0 then ctx.elapsed / duration else 1)
    brightness origin

/-- `EffectSunset.generate_frame` (`sunrise.py` lines 353-365). -/
noncomputable def sunsetFrame (duration brightness : ℝ) (origin : SunOrigin)
    (ctx : FrameContext) : List HSBK :=
  sunFrame ctx (1 - (if duration ≠ 0 then ctx.elapsed / duration else 0))
    brightness origin

/-- C8: every catalog frame generator — rainbow, flame, aurora,
colorloop, progress, sunrise and sunset — returns a frame whose length
equals `ctx.pixel_count`, for every context with at least a 1×1 canvas
and for all effect parameters. -/
theorem generateFrame_length_eq_pixelCount (rp : RainbowParams)
    (fp : FlameParams) (ap : AuroraParams) (cp : ColorloopParams)
    (initialColors : List HSBK) (direction : ℤ) (pp : ProgressParams)
    (sunDuration sunBrightness : ℝ) (origin : SunOrigin)
    (ctx : FrameContext) (hW : 1 ≤ ctx.canvasWidth)
    (hH : 1 ≤ ctx.canvasHeight) :
    (rainbowFrame rp ctx).length = ctx.pixelCount ∧
    (flameFrame fp ctx).length = ctx.pixelCount ∧
    (auroraFrame ap ctx).length = ctx.pixelCount ∧
    (colorloopFrame cp initialColors direction ctx).length = ctx.pixelCount ∧
    (progressFrame pp ctx).length = ctx.pixelCount ∧
    (sunriseFrame sunDuration sunBrightness origin ctx).length =
      ctx.pixelCount ∧
    (sunsetFrame sunDuration sunBrightness origin ctx).length =
      ctx.pixelCount := by
  refine ⟨?_, ?_, ?_, ?_, ?_, ?_, ?_⟩
  · simp [rainbowFrame]
  · simp [flameFrame]
  · simp [auroraFrame]
  · unfold colorloopFrame
    split
    · simp
    · simp
  · simp [progressFrame]
  · simp [sunriseFrame, sunFrame]
  · simp [sunsetFrame, sunFrame]

/-- Closed witness for C8 on an 8×8 matrix context. -/
theorem generateFrame_length_eq_pixelCount_witness :
    1 ≤ (8 : Nat) ∧
    (rainbowFrame ⟨10, 0.8, 1, 0⟩ ⟨5, 0, 64, 8, 8⟩).length = 64 := by
  have h := generateFrame_length_eq_pixelCount ⟨10, 0.8, 1, 0⟩
    ⟨0.7, 1, 1500, 2500, 0.8⟩ ⟨1, 0.8, [120, 160, 200, 260, 290], 0⟩
    ⟨60, 30, none, 0.8, 1, false⟩ [] 1
    ⟨0, 100, 50, Sum.inl ⟨120, 1, 0.8, 3500⟩, ⟨0, 0, 0.05, 3500⟩, 1, 0.15, 1⟩
    60 1 .bottom ⟨5, 0, 64, 8, 8⟩ (by decide) (by decide)
  exact ⟨by decide, h.1⟩

/-- C7 counterexample: the frame loop of `FrameEffect.async_play` performs
no length check — a tick whose generator returns an empty frame for an
animator with `pixel_count = 2` completes normally and hands the
mismatched (empty) frame to the animator instead of failing. -/
theorem frameTick_no_length_assertion :
    frameTick (fun _ => ([] : List HSBK)) 0 [⟨2, 2, 1⟩] = [[]] ∧
    ¬ (∀ frame ∈ frameTick (fun _ => ([] : List HSBK)) 0 [⟨2, 2, 1⟩],
        frame.length = 2) := by
  constructor
  · rfl
  · intro h
    have := h [] (by rw [show frameTick (fun _ => ([] : List HSBK)) 0 [⟨2, 2, 1⟩] = [[]] from rfl]; exact List.mem_singleton.mpr rfl)
    simp at this

/-- C7 (as amended): on every tick the frame loop produces exactly one
frame per animator, and the frame handed to animator `idx` is exactly
`generate_frame` of that animator's context — unvalidated: no length
assertion is performed between generation and hand-off. -/
theorem frameTick_hands_frames_unchecked
    (generate : FrameContext → List HSBK) (elapsed : ℝ)
    (animators : List AnimatorInfo) :
    (frameTick generate elapsed animators).length = animators.length ∧
    ∀ idx : Nat, idx < animators.length →
      (frameTick generate elapsed animators).getD idx [] =
        generate
          { elapsed := elapsed, deviceIndex := idx,
            pixelCount := (animators.getD idx ⟨0, 0, 0⟩).pixelCount,
            canvasWidth := (animators.getD idx ⟨0, 0, 0⟩).canvasWidth,
            canvasHeight := (animators.getD idx ⟨0, 0, 0⟩).canvasHeight } := by
  suffices haux : ∀ (start : Nat) (xs : List AnimatorInfo),
      (frameTickAux generate elapsed start xs).length = xs.length ∧
      ∀ idx : Nat, idx < xs.length →
        (frameTickAux generate elapsed start xs).getD idx [] =
          generate
            { elapsed := elapsed, deviceIndex := start + idx,
              pixelCount := (xs.getD idx ⟨0, 0, 0⟩).pixelCount,
              canvasWidth := (xs.getD idx ⟨0, 0, 0⟩).canvasWidth,
              canvasHeight := (xs.getD idx ⟨0, 0, 0⟩).canvasHeight } by
    obtain ⟨h1, h2⟩ := haux 0 animators
    refine ⟨h1, fun idx hidx => ?_⟩
    have := h2 idx hidx
    simpa using this
  intro start xs
  induction xs generalizing start with
  | nil => exact ⟨rfl, fun idx hidx => absurd hidx (by simp)⟩
  | cons a rest ih =>
    obtain ⟨ih1, ih2⟩ := ih (start + 1)
    refine ⟨by simpa [frameTickAux] using ih1, fun idx hidx => ?_⟩
    cases idx with
    | zero => simp [frameTickAux]
    | succ j =>
      have hj : j < rest.length := by simpa using hidx
      have := ih2 j hj
      simp only [frameTickAux, List.getD_cons_succ]
      rw [this]
      have harith : start + 1 + j = start + (j + 1) := by omega
      rw [harith]

/-- Closed witness for the amended C7 theorem at one animator. -/
theorem frameTick_hands_frames_unchecked_witness :
    (0 : Nat) < 1 ∧
    (frameTick (fun _ => ([] : List HSBK)) 0 [⟨2, 2, 1⟩]).getD 0 [] =
      (fun (_ : FrameContext) => ([] : List HSBK))
        { elapsed := 0, deviceIndex := 0, pixelCount := 2,
          canvasWidth := 2, canvasHeight := 1 } := by
  have h := frameTick_hands_frames_unchecked
    (fun _ => ([] : List HSBK)) 0 [⟨2, 2, 1⟩]
  exact ⟨by decide, h.2 0 (by decide)⟩

/-! ### C9: flame brightness as a function of intensity.

`flame.py` computes per-pixel brightness
`base · (1 − intensity + intensity · flicker)`, then multiplies by the
vertical falloff `1 − (y/H)^0.7` on canvases with more than one row.  With
`intensity = 0` the flicker term cancels, but the vertical falloff still
varies across rows, so brightness is only constant on one-row (non-matrix)
canvases.  The numeric lemmas below bound the sines at the concrete flicker
arguments of pixel 1 of a 2-pixel frame at `elapsed = 0`. -/

/-- Population variance of a list of reals (the metric behind the spec's
"brightness variance"). -/
noncomputable def listVariance (l : List ℝ) : ℝ :=
  (l.map (fun x => (x - l.sum / l.length) ^ (2 : ℕ))).sum / l.length

/-- Variance of the per-pixel brightness of a frame. -/
noncomputable def brightnessVariance (frame : List HSBK) : ℝ :=
  listVariance (frame.map HSBK.brightness)

theorem listVariance_pair (a b : ℝ) : listVariance [a, b] = (a - b) ^ 2 / 4 := by
  simp [listVariance]
  ring

theorem sin_855_gt : Real.sin 8.55 > 0.7 := by
  have hpi1 := Real.pi_gt_d6
  have hpi2 := Real.pi_lt_d6
  have hper : Real.sin (8.55 : ℝ) = Real.sin (8.55 - 2 * Real.pi) := by
    have h := Real.sin_add_nat_mul_two_pi (8.55 - 2 * Real.pi) 1
    have harg : (8.55 - 2 * Real.pi) + (1 : ℕ) * (2 * Real.pi) = 8.55 := by
      push_cast
      ring
    rw [harg] at h
    exact h
  have hps : Real.sin (8.55 - 2 * Real.pi) =
      Real.sin (Real.pi - (8.55 - 2 * Real.pi)) := (Real.sin_pi_sub _).symm
  have hv1 : (0.874776 : ℝ) < Real.pi - (8.55 - 2 * Real.pi) := by
    nlinarith
  have hv2 : Real.pi - (8.55 - 2 * Real.pi) < 0.874779 := by
    nlinarith
  have hcube := Real.sin_gt_sub_cube
    (x := Real.pi - (8.55 - 2 * Real.pi)) (by linarith) (by linarith)
  have hval : (0.7 : ℝ) < (Real.pi - (8.55 - 2 * Real.pi)) -
      (Real.pi - (8.55 - 2 * Real.pi)) ^ 3 / 4 := by
    nlinarith [sq_nonneg (Real.pi - (8.55 - 2 * Real.pi)),
      sq_nonneg (Real.pi - (8.55 - 2 * Real.pi) + 0.874779)]
  rw [hper, hps]
  linarith

theorem sin_1585_gt : Real.sin 15.85 > -0.15 := by
  have hpi1 := Real.pi_gt_d6
  have hpi2 := Real.pi_lt_d6
  have hper : Real.sin (15.85 : ℝ) = Real.sin (15.85 - 4 * Real.pi) := by
    have h := Real.sin_add_nat_mul_two_pi (15.85 - 4 * Real.pi) 2
    have harg : (15.85 - 4 * Real.pi) + (2 : ℕ) * (2 * Real.pi) = 15.85 := by
      push_cast
      ring
    rw [harg] at h
    exact h
  have hflip : Real.sin (15.85 - 4 * Real.pi) =
      -Real.sin (15.85 - 5 * Real.pi) := by
    have h := Real.sin_add_pi (15.85 - 5 * Real.pi)
    have harg : (15.85 - 5 * Real.pi) + Real.pi = 15.85 - 4 * Real.pi := by ring
    rw [harg] at h
    exact h
  have hz1 : (0 : ℝ) < 15.85 - 5 * Real.pi := by nlinarith
  have hz2 : (15.85 : ℝ) - 5 * Real.pi < 0.14204 := by nlinarith
  have hlt := Real.sin_lt hz1
  rw [hper, hflip]
  linarith

theorem sin_2665_gt : Real.sin 26.65 > 0 := by
  have hpi1 := Real.pi_gt_d6
  have hpi2 := Real.pi_lt_d6
  have hper : Real.sin (26.65 : ℝ) = Real.sin (26.65 - 8 * Real.pi) := by
    have h := Real.sin_add_nat_mul_two_pi (26.65 - 8 * Real.pi) 4
    have harg : (26.65 - 8 * Real.pi) + (4 : ℕ) * (2 * Real.pi) = 26.65 := by
      push_cast
      ring
    rw [harg] at h
    exact h
  rw [hper]
  apply Real.sin_pos_of_pos_of_lt_pi
  · nlinarith
  · nlinarith

theorem flicker_zero_zero : flicker 0 0 = 0.5 := by
  unfold flicker
  norm_num

theorem flicker_zero_half_gt : flicker 0 (1 / 2) > 0.6 := by
  unfold flicker
  have h1 : (0 : ℝ) * 3.7 + 1 / 2 * 17.1 = 8.55 := by norm_num
  have h2 : (0 : ℝ) * 7.3 + 1 / 2 * 31.7 = 15.85 := by norm_num
  have h3 : (0 : ℝ) * 13.1 + 1 / 2 * 53.3 = 26.65 := by norm_num
  rw [h1, h2, h3]
  have := sin_855_gt
  have := sin_1585_gt
  have := sin_2665_gt
  norm_num
  linarith

theorem flicker_zero_half_lt : flicker 0 (1 / 2) < 0.8 := by
  unfold flicker
  have h1 : (0 : ℝ) * 3.7 + 1 / 2 * 17.1 = 8.55 := by norm_num
  have h2 : (0 : ℝ) * 7.3 + 1 / 2 * 31.7 = 15.85 := by norm_num
  have h3 : (0 : ℝ) * 13.1 + 1 / 2 * 53.3 = 26.65 := by norm_num
  rw [h1, h2, h3]
  have ha := Real.sin_le_one (8.55 : ℝ)
  have hb := Real.sin_le_one (15.85 : ℝ)
  have hc := Real.sin_le_one (26.65 : ℝ)
  norm_num
  linarith

theorem pairwise_eq_of_const {α : Type} (l : List α) (c : α)
    (h : ∀ x ∈ l, x = c) : List.Pairwise (fun a b => a = b) l := by
  induction l with
  | nil => exact List.Pairwise.nil
  | cons a t ih =>
    refine List.Pairwise.cons ?_ (ih (fun x hx => h x (List.mem_cons_of_mem a hx)))
    intro b hb
    rw [h a (List.mem_cons_self a t), h b (List.mem_cons_of_mem a hb)]

theorem flameFrame_two (p : FlameParams) (ctx : FrameContext)
    (h : ctx.pixelCount = 2) :
    flameFrame p ctx = [flamePixel p ctx 0, flamePixel p ctx 1] := by
  unfold flameFrame
  rw [h]
  rfl

theorem matrix_flame_b0 :
    (flamePixel ⟨0, 1, 1500, 2500, 0.8⟩ ⟨0, 0, 2, 1, 2⟩ 0).brightness = 0.8 := by
  unfold flamePixel clamp01
  norm_num [Real.zero_rpow]

theorem matrix_flame_b1 :
    (flamePixel ⟨0, 1, 1500, 2500, 0.8⟩ ⟨0, 0, 2, 1, 2⟩ 1).brightness =
      0.8 * (1 - ((1 : ℝ) / 2) ^ (0.7 : ℝ)) := by
  have hrpos : (0 : ℝ) < ((1 : ℝ) / 2) ^ (0.7 : ℝ) :=
    Real.rpow_pos_of_pos (by norm_num) _
  have hrle : ((1 : ℝ) / 2) ^ (0.7 : ℝ) ≤ 1 :=
    Real.rpow_le_one (by norm_num) (by norm_num) (by norm_num)
  unfold flamePixel clamp01
  norm_num
  rw [min_eq_right (by nlinarith), max_eq_right (by nlinarith)]

theorem oneD_flame_b_int0 (i : Nat) :
    (flamePixel ⟨0, 1, 1500, 2500, 0.8⟩ ⟨0, 0, 2, 2, 1⟩ i).brightness = 0.8 := by
  unfold flamePixel clamp01
  norm_num

theorem oneD_flame_b0_int1 :
    (flamePixel ⟨1, 1, 1500, 2500, 0.8⟩ ⟨0, 0, 2, 2, 1⟩ 0).brightness = 0.4 := by
  unfold flamePixel clamp01
  norm_num [flicker_zero_zero]

theorem oneD_flame_b1_int1 :
    (flamePixel ⟨1, 1, 1500, 2500, 0.8⟩ ⟨0, 0, 2, 2, 1⟩ 1).brightness =
      0.8 * flicker 0 (1 / 2) := by
  have h1 := flicker_zero_half_gt
  have h2 := flicker_zero_half_lt
  unfold flamePixel clamp01
  norm_num
  rw [min_eq_right (by nlinarith), max_eq_right (by nlinarith)]

/-- C9 counterexample: on a 1×2 matrix canvas, a flame frame generated
with `intensity = 0` does not have constant brightness across pixels —
the vertical falloff `1 − (y/H)^0.7` makes row 1 strictly dimmer than
row 0, refuting the claim's "for every FrameContext ctx". -/
theorem flame_intensity0_matrix_counterexample :
    ¬ List.Pairwise (fun a b => a = b)
      ((flameFrame ⟨0, 1, 1500, 2500, 0.8⟩ ⟨0, 0, 2, 1, 2⟩).map
        HSBK.brightness) := by
  intro hpw
  rw [flameFrame_two _ _ rfl] at hpw
  simp only [List.map_cons, List.map_nil] at hpw
  have heq := (List.pairwise_cons.mp hpw).1 _ (List.mem_singleton.mpr rfl)
  rw [matrix_flame_b0, matrix_flame_b1] at heq
  have hrpos : (0 : ℝ) < ((1 : ℝ) / 2) ^ (0.7 : ℝ) :=
    Real.rpow_pos_of_pos (by norm_num) _
  nlinarith

/-- C9 (as amended): on a single-row (non-matrix) canvas a flame frame
generated with `intensity = 0` has constant brightness across pixels, for
every speed, kelvin range and base brightness; and at the fixed two-pixel
single-row context with `elapsed = 0` (default parameters), the
`intensity = 1` frame has strictly greater brightness variance than the
`intensity = 0` frame.  On multi-row canvases the claim fails (see the
counterexample): the vertical falloff already varies brightness at
`intensity = 0`. -/
theorem flame_intensity_brightness_amended :
    (∀ (speed : ℝ) (kmin kmax : ℤ) (b : ℝ) (ctx : FrameContext),
      ctx.canvasHeight ≤ 1 →
      List.Pairwise (fun x y => x = y)
        ((flameFrame ⟨0, speed, kmin, kmax, b⟩ ctx).map HSBK.brightness)) ∧
    brightnessVariance (flameFrame ⟨1, 1, 1500, 2500, 0.8⟩ ⟨0, 0, 2, 2, 1⟩) >
      brightnessVariance (flameFrame ⟨0, 1, 1500, 2500, 0.8⟩ ⟨0, 0, 2, 2, 1⟩) := by
  constructor
  · intro speed kmin kmax b ctx hH
    apply pairwise_eq_of_const _ (clamp01 b)
    intro x hx
    simp only [flameFrame, List.map_map, List.mem_map, List.mem_range,
      Function.comp] at hx
    obtain ⟨i, hi, hx2⟩ := hx
    rw [← hx2]
    unfold flamePixel
    dsimp only
    rw [if_neg (by omega)]
    congr 1
    ring
  · rw [brightnessVariance, brightnessVariance, flameFrame_two _ _ rfl,
      flameFrame_two _ _ rfl]
    simp only [List.map_cons, List.map_nil]
    rw [oneD_flame_b0_int1, oneD_flame_b1_int1, oneD_flame_b_int0 0,
      oneD_flame_b_int0 1]
    rw [listVariance_pair, listVariance_pair]
    have h1 := flicker_zero_half_gt
    nlinarith

/-- Closed witness for the amended C9 theorem: the constancy part applied
at a concrete single-row context. -/
theorem flame_intensity_brightness_amended_witness :
    (FrameContext.mk 0 0 2 2 1).canvasHeight ≤ 1 ∧
    List.Pairwise (fun x y => x = y)
      ((flameFrame ⟨0, 1, 1500, 2500, 0.8⟩ ⟨0, 0, 2, 2, 1⟩).map
        HSBK.brightness) :=
  ⟨by decide,
    flame_intensity_brightness_amended.1 1 1500 2500 0.8 ⟨0, 0, 2, 2, 1⟩
      (by decide)⟩

/-! ### Constructor validation (C10).

`FrameEffect.__init__`, `EffectRainbow.__init__` and
`EffectFlame.__init__` validate their parameters and raise `ValueError`
before the effect object is usable.  The constructors are embedded as
functions into `Except`, with Python floats as `ℚ` (only comparisons are
performed) and kelvins as `ℤ`. -/

/-- A raised Python `ValueError`. -/
inductive PyError where
  | valueError
deriving DecidableEq

/-- State established by `FrameEffect.__init__` (`frame_effect.py` lines
77-103). -/
structure FrameEffectBase where
  powerOn : Bool
  fps : ℚ
  duration : Option ℚ
deriving DecidableEq

/-- `FrameEffect.__init__` (`frame_effect.py` lines 77-103): raise
`ValueError` when `fps <= 0` or when a given duration is `<= 0`. -/
def mkFrameEffect (powerOn : Bool) (fps : ℚ) (duration : Option ℚ) :
    Except PyError FrameEffectBase :=
  if fps ≤ 0 then .error .valueError
  else
    match duration with
    | some d =>
      if d ≤ 0 then .error .valueError
      else .ok ⟨powerOn, fps, duration⟩
    | none => .ok ⟨powerOn, fps, duration⟩

/-- A constructed `EffectRainbow` (`rainbow.py` lines 52-88). -/
structure RainbowEffectObj where
  base : FrameEffectBase
  period : ℚ
  brightness : ℚ
  saturation : ℚ
  spread : ℚ
deriving DecidableEq

/-- `EffectRainbow.__init__` (`rainbow.py` lines 52-88): validate period,
brightness, saturation and spread, then call the base constructor with
`fps = 20`, `duration = None`. -/
def mkEffectRainbow (powerOn : Bool) (period brightness saturation spread : ℚ) :
    Except PyError RainbowEffectObj :=
  if period ≤ 0 then .error .valueError
  else if ¬ (0 ≤ brightness ∧ brightness ≤ 1) then .error .valueError
  else if ¬ (0 ≤ saturation ∧ saturation ≤ 1) then .error .valueError
  else if ¬ (0 ≤ spread ∧ spread ≤ 360) then .error .valueError
  else
    (mkFrameEffect powerOn 20 none).map
      (fun base => ⟨base, period, brightness, saturation, spread⟩)

/-- Modelled from the spec: `MIN_KELVIN` from `lifx/const.py` (not in the
source tree); the spec's HSBK kelvin range is 1500-9000 K. -/
def MIN_KELVIN : ℤ := 1500

/-- Modelled from the spec: `MAX_KELVIN` from `lifx/const.py` (not in the
source tree); the spec's HSBK kelvin range is 1500-9000 K. -/
def MAX_KELVIN : ℤ := 9000

/-- A constructed `EffectFlame` (`flame.py` lines 50-93). -/
structure FlameEffectObj where
  base : FrameEffectBase
  intensity : ℚ
  speed : ℚ
  kelvinMin : ℤ
  kelvinMax : ℤ
  brightness : ℚ
deriving DecidableEq

/-- `EffectFlame.__init__` (`flame.py` lines 50-93): validate intensity,
speed, the kelvin bounds and brightness, then call the base constructor
with `fps = 20`, `duration = None`. -/
def mkEffectFlame (powerOn : Bool) (intensity speed : ℚ)
    (kelvinMin kelvinMax : ℤ) (brightness : ℚ) :
    Except PyError FlameEffectObj :=
  if ¬ (0 ≤ intensity ∧ intensity ≤ 1) then .error .valueError
  else if speed ≤ 0 then .error .valueError
  else if kelvinMin < MIN_KELVIN then .error .valueError
  else if kelvinMax > MAX_KELVIN then .error .valueError
  else if kelvinMin > kelvinMax then .error .valueError
  else if ¬ (0 ≤ brightness ∧ brightness ≤ 1) then .error .valueError
  else
    (mkFrameEffect powerOn 20 none).map
      (fun base => ⟨base, intensity, speed, kelvinMin, kelvinMax, brightness⟩)

/-- C10: each frame-effect constructor raises `ValueError` (producing no
effect object) when a parameter is out of range: `FrameEffect` for
`fps ≤ 0` and for a given `duration ≤ 0`; `EffectRainbow` additionally
for `period ≤ 0`, brightness or saturation outside `[0, 1]`, and spread
outside `[0, 360]`; `EffectFlame` for intensity outside `[0, 1]`,
`speed ≤ 0`, `kelvin_min > kelvin_max`, and brightness outside
`[0, 1]`. -/
theorem effect_constructors_validate (powerOn : Bool)
    (fps d period brightness saturation spread intensity speed : ℚ)
    (kelvinMin kelvinMax : ℤ) (duration : Option ℚ) :
    (fps ≤ 0 → mkFrameEffect powerOn fps duration = .error .valueError) ∧
    (d ≤ 0 → mkFrameEffect powerOn fps (some d) = .error .valueError) ∧
    (period ≤ 0 →
      mkEffectRainbow powerOn period brightness saturation spread =
        .error .valueError) ∧
    (¬ (0 ≤ brightness ∧ brightness ≤ 1) →
      mkEffectRainbow powerOn period brightness saturation spread =
        .error .valueError) ∧
    (¬ (0 ≤ saturation ∧ saturation ≤ 1) →
      mkEffectRainbow powerOn period brightness saturation spread =
        .error .valueError) ∧
    (¬ (0 ≤ spread ∧ spread ≤ 360) →
      mkEffectRainbow powerOn period brightness saturation spread =
        .error .valueError) ∧
    (¬ (0 ≤ intensity ∧ intensity ≤ 1) →
      mkEffectFlame powerOn intensity speed kelvinMin kelvinMax brightness =
        .error .valueError) ∧
    (speed ≤ 0 →
      mkEffectFlame powerOn intensity speed kelvinMin kelvinMax brightness =
        .error .valueError) ∧
    (kelvinMin > kelvinMax →
      mkEffectFlame powerOn intensity speed kelvinMin kelvinMax brightness =
        .error .valueError) ∧
    (¬ (0 ≤ brightness ∧ brightness ≤ 1) →
      mkEffectFlame powerOn intensity speed kelvinMin kelvinMax brightness =
        .error .valueError) := by
  refine ⟨?_, ?_, ?_, ?_, ?_, ?_, ?_, ?_, ?_, ?_⟩
  · intro h
    unfold mkFrameEffect
    rw [if_pos h]
  · intro h
    unfold mkFrameEffect
    by_cases hf : fps ≤ 0
    · rw [if_pos hf]
    · rw [if_neg hf]
      dsimp only
      rw [if_pos h]
  · intro h
    unfold mkEffectRainbow
    split_ifs <;> first | rfl | tauto
  · intro h
    unfold mkEffectRainbow
    split_ifs <;> first | rfl | tauto
  · intro h
    unfold mkEffectRainbow
    split_ifs <;> first | rfl | tauto
  · intro h
    unfold mkEffectRainbow
    split_ifs <;> first | rfl | tauto
  · intro h
    unfold mkEffectFlame
    split_ifs <;> first | rfl | tauto
  · intro h
    unfold mkEffectFlame
    split_ifs <;> first | rfl | tauto
  · intro h
    unfold mkEffectFlame
    split_ifs <;> first | rfl | tauto
  · intro h
    unfold mkEffectFlame
    split_ifs <;> first | rfl | tauto

/-- Closed witness for C10 at concrete out-of-range inputs. -/
theorem effect_constructors_validate_witness :
    ((-1 : ℚ) ≤ 0 ∧ mkFrameEffect true (-1) none = .error .valueError) ∧
    (¬ ((0 : ℚ) ≤ 2 ∧ (2 : ℚ) ≤ 1) ∧
      mkEffectRainbow true 10 2 1 0 = .error .valueError) ∧
    ((2000 : ℤ) > 1800 ∧
      mkEffectFlame true (1/2) 1 2000 1800 (4/5) = .error .valueError) := by
  have h1 := (effect_constructors_validate true (-1) 0 10 2 1 0 (1/2) 1
    2000 1800 none).1 (by norm_num)
  have h2 := (effect_constructors_validate true (-1) 0 10 2 1 0 (1/2) 1
    2000 1800 none).2.2.2.1 (by norm_num)
  have h3 := (effect_constructors_validate true (-1) 0 10 2 1 0 (1/2) 1
    2000 1800 none).2.2.2.2.2.2.2.2.1 (by norm_num)
  exact ⟨⟨by norm_num, h1⟩, ⟨by norm_num, h2⟩, ⟨by norm_num, h3⟩⟩

end Lifx
